import Mathlib

set_option maxHeartbeats 1600000

/-!
Shallow embedding of the `OddOrEven` Scrypto blueprint (`src/lib.rs` of
manelvicente/OddOrEven): a two-player wagering game in which each player
deposits a stake, picks a number, and a parity fold over the two picks
selects the winner, who may then withdraw the pot.

Modelling conventions, from the source:
* `NonFungibleLocalId` — the program only uses integer local ids (1 and 2
  for the two pre-minted player badges, 0 as the unset-winner sentinel),
  modelled as `Nat`.
* `Decimal` amounts (vault balances, bucket amounts, the bet) — Scrypto
  vault/bucket balances are non-negative; modelled as `Nat` subunits.
* `u128` guesses — modelled as `Nat`; the running sum in the winner fold
  wraps at `2 ^ 128` as release-mode Rust `u128` addition does.
* Rust `assert!`/`unwrap` panics abort the whole Scrypto transaction with
  no state change; a fallible operation is therefore modelled as a pure
  function into `Except Err _` (method panics) or `Option` (internal
  `unwrap`), where an error result means "aborted, nothing mutated".
* `HashMap<NonFungibleLocalId, Player>` — modelled as an association list
  whose list order is the map's iteration order; `insert` replaces the
  value in place when the key is present and appends otherwise.
-/

/-- Model of `NonFungibleLocalId`, restricted to the integer ids the program uses. -/
abbrev NFLId := Nat

/-- Model of `ResourceAddress`, an abstract tag used only for equality tests. -/
abbrev ResourceAddress := Nat

/-- Wrapping modulus of the Rust `u128` running sum in `get_game_winner`. -/
def U128MOD : Nat := 2 ^ 128

/-- The `OddOrEven` enum of `src/lib.rs` (badge characteristic). -/
inductive OddOrEven
  | Odd
  | Even
deriving DecidableEq, Repr

/-- The `State` enum of `src/lib.rs` (game phases, in declaration order). -/
inductive State
  | AcceptingPlayers
  | PickNumber
  | WinnerSelection
  | Payout
  | Ended
deriving DecidableEq, Repr

/-- Discriminant of `State` (the Rust enum assigns 0,1,2,3,4), used to state
forward progress of the phase machine. -/
def State.rank : State → Nat
  | .AcceptingPlayers => 0
  | .PickNumber => 1
  | .WinnerSelection => 2
  | .Payout => 3
  | .Ended => 4

/-- The `PlayerNFT` non-fungible data of `src/lib.rs`. -/
structure PlayerNFT where
  name : String
  odd_or_even : OddOrEven
deriving DecidableEq, Repr

/-- The `Player` struct of `src/lib.rs`. -/
structure Player where
  number : Nat
  odd_or_even : Option OddOrEven
deriving DecidableEq, Repr

/-- Rust `Player::empty()`. -/
def Player.empty : Player :=
  { number := 0, odd_or_even := none }

/-- The `Game` struct of `src/lib.rs`. `players_list` is the
`Option<HashMap<NonFungibleLocalId, Player>>` field, as an association list
in iteration order. -/
structure Game where
  state : State
  players_list : Option (List (NFLId × Player))
  winner : NFLId
  bet_amount : Nat
deriving DecidableEq, Repr

/-- Rust `Game::instantiate_game`: fresh game in `AcceptingPlayers`, winner set to
the sentinel `NonFungibleLocalId::integer(0)`. -/
def Game.instantiate_game (players : Option (List (NFLId × Player))) (bet : Nat) : Game :=
  { state := State.AcceptingPlayers
    players_list := players
    winner := 0
    bet_amount := bet }

/-- Rust `Game::both_picked`: two players are present and both of their recorded
numbers are strictly positive (`filter(|pick| pick > &0u128)`). -/
def Game.both_picked (g : Game) : Bool :=
  match g.players_list with
  | some players =>
      if players.length == 2 then
        (((players.map fun p => p.2.number).filter fun pick => 0 < pick).length) == 2
      else
        false
  | none => false

/-- The `State::WinnerSelection` arm of `Game::update_state`: advance to
`Payout` exactly when `winner` differs from the sentinel id 0. -/
def Game.update_state_winner_selection (g : Game) : Game :=
  if g.winner ≠ 0 then { g with state := State.Payout } else g

/-- Rust `Game::get_game_winner`: asserts the phase is `WinnerSelection` (`none`
models the assert panic), folds over the player records accumulating the
(wrapping `u128`) running sum of picks, recording the id of every record at
which the running sum is even, then runs `update_state`. Because the phase
is `WinnerSelection` at that point, that trailing `self.update_state()` call
executes exactly the `WinnerSelection` arm, inlined here as
`Game.update_state_winner_selection` (see `Game.update_state_at_winner_selection`). -/
def Game.get_game_winner (g : Game) : Option Game :=
  if g.state = State.WinnerSelection then
    match g.players_list with
    | some players =>
        let r := players.foldl
          (fun (acc : Nat × NFLId) p =>
            let sum := (acc.1 + p.2.number) % U128MOD
            (sum, if sum % 2 == 0 then p.1 else acc.2))
          (0, g.winner)
        some (Game.update_state_winner_selection { g with winner := r.2 })
    | none => none
  else
    none

/-- Rust `Game::update_state`. `none` models a panic (the `unwrap` of
`players_list` in the `AcceptingPlayers` arm when no player has joined yet).
The `PickNumber` arm sets the state to `WinnerSelection` and calls
`get_game_winner`, exactly as the source does; the final `_ => ()` arm makes
`Ended` a no-op. -/
def Game.update_state (g : Game) : Option Game :=
  match g.state with
  | State.AcceptingPlayers =>
      match g.players_list with
      | none => none
      | some players =>
          if players.length == 2 then
            some { g with state := State.PickNumber }
          else
            some g
  | State.PickNumber =>
      if g.both_picked then
        Game.get_game_winner { g with state := State.WinnerSelection }
      else
        some g
  | State.WinnerSelection => some g.update_state_winner_selection
  | State.Payout => some { g with state := State.Ended }
  | State.Ended => some g

/-- A fungible (XRD) bucket: just an amount. -/
structure Bucket where
  amount : Nat
deriving DecidableEq, Repr

/-- A badge `Proof` presented to `pick_number` / `withdraw_xrd`: the amount
of tokens it attests, the resource address it is for, and the non-fungible
local id it shows. -/
structure Proof where
  amount : Nat
  resource : ResourceAddress
  nft_id : NFLId
deriving DecidableEq, Repr

/-- The distinct abort causes of the blueprint methods, one per
`assert!`/`expect`/`unwrap` site in `src/lib.rs`. -/
inductive Err
  | WrongPhase          -- state assert: "Not Accepting Players!" etc.
  | GameFull            -- "This game is full!"
  | InsufficientStake   -- "Not enough XRD Wagered!"
  | InvalidProofAmount  -- "Invalid badge amount provided"
  | InvalidIdentity     -- validate_proof "Wrong badge provided"
  | UnknownParticipant  -- get_mut(..) returned None, unwrap panic
  | NotWinner           -- "You can't withdraw XRD because you didn't win."
  | EmptyBadgeVault     -- player_badges_vault.take(1) with no badge left
  | Panic               -- any other unwrap panic
deriving DecidableEq, Repr

/-- The `OOE` component state of the blueprint. `player_badges_vault` holds
the not-yet-distributed player badges (`take(1)` removes the head);
`xrd_vault` is the escrowed XRD balance. -/
structure OOE where
  player_badges_vault : List (NFLId × PlayerNFT)
  player_badge_address : ResourceAddress
  xrd_vault : Nat
  game : Game
deriving DecidableEq, Repr

/-- The address the two player badges are minted under. -/
def playerBadgeAddress : ResourceAddress := 1

/-- Rust `OOE::instantiate_ooe_game`: mints badge 1 (`Even`) and badge 2 (`Odd`),
stores them in the badge vault, creates an empty XRD vault and a fresh game
with `players_list = None`. -/
def instantiate_ooe_game (bet : Nat) : OOE :=
  { player_badges_vault :=
      [ (1, { name := "Even Player badge", odd_or_even := OddOrEven.Even })
      , (2, { name := "Odd Player badge", odd_or_even := OddOrEven.Odd }) ]
    player_badge_address := playerBadgeAddress
    xrd_vault := 0
    game := Game.instantiate_game none bet }

/-- Rust `HashMap::insert` on the association-list model: replace in place when
the key is present, append otherwise. -/
def hashMapInsert (m : List (NFLId × Player)) (k : NFLId) (v : Player) :
    List (NFLId × Player) :=
  if m.any fun p => p.1 == k then
    m.map fun p => if p.1 == k then (k, v) else p
  else
    m ++ [(k, v)]

/-- Rust `OOE::join_ooe_game`. Checks, in source order: the phase is
`AcceptingPlayers`; if a players map exists, its size is at most 2 (note the
source's non-strict `<= 2` bound); the wager covers the bet. Then takes the
first remaining badge, deposits exactly `bet_amount` into the XRD vault,
inserts a fresh `Player` (number 0, side copied from the badge) under the
badge's id, runs `update_state`, and returns the badge and the change. -/
def OOE.join_ooe_game (c : OOE) (wager : Bucket) :
    Except Err (OOE × (NFLId × PlayerNFT) × Bucket) :=
  if c.game.state ≠ State.AcceptingPlayers then
    .error Err.WrongPhase
  else if (match c.game.players_list with
           | some players => decide (¬ players.length ≤ 2)
           | none => false : Bool) then
    .error Err.GameFull
  else if wager.amount < c.game.bet_amount then
    .error Err.InsufficientStake
  else
    match c.player_badges_vault with
    | [] => .error Err.EmptyBadgeVault
    | badge :: rest =>
        let nft_id := badge.1
        let player : Player := { Player.empty with odd_or_even := some badge.2.odd_or_even }
        let players' : List (NFLId × Player) :=
          match c.game.players_list with
          | some players => hashMapInsert players nft_id player
          | none => [(nft_id, player)]
        match Game.update_state { c.game with players_list := some players' } with
        | none => .error Err.Panic
        | some g' =>
            .ok ( { c with
                      player_badges_vault := rest
                      xrd_vault := c.xrd_vault + c.game.bet_amount
                      game := g' }
                , badge
                , { amount := wager.amount - c.game.bet_amount } )

/-- The in-place write performed by `pick_number`'s
`player.as_mut().unwrap().number = number`: the record keyed by the proof's
id gets its `number` field overwritten, every other record is untouched. -/
def pickUpdate (players : List (NFLId × Player)) (id : NFLId) (n : Nat) :
    List (NFLId × Player) :=
  players.map fun p => if p.1 == id then (p.1, { p.2 with number := n }) else p

/-- Rust `OOE::pick_number`. Checks, in source order: the proof shows exactly one
token; the phase is `PickNumber`; the proof validates against the player
badge address; then looks the proof's id up in `players_list` (the `unwrap`
of a missing map or a missing record is a panic), overwrites that player's
`number` (see `pickUpdate`), and runs `update_state`. -/
def OOE.pick_number (c : OOE) (number : Nat) (proof : Proof) : Except Err OOE :=
  if proof.amount ≠ 1 then
    .error Err.InvalidProofAmount
  else if c.game.state ≠ State.PickNumber then
    .error Err.WrongPhase
  else if proof.resource ≠ c.player_badge_address then
    .error Err.InvalidIdentity
  else
    match c.game.players_list with
    | none => .error Err.Panic
    | some players =>
        if players.any fun p => p.1 == proof.nft_id then
          match Game.update_state { c.game with
              players_list := some (pickUpdate players proof.nft_id number) } with
          | none => .error Err.Panic
          | some g' => .ok { c with game := g' }
        else
          .error Err.UnknownParticipant

/-- Rust `OOE::withdraw_xrd`. Checks, in source order: the proof shows exactly one
token; the phase is `Payout`; the proof validates against the player badge
address; the proof's id equals `game.winner`. Then takes the whole XRD
balance out of the vault, runs `update_state` (`Payout → Ended`), and
returns the payout bucket and the confirmation message. -/
def OOE.withdraw_xrd (c : OOE) (proof : Proof) :
    Except Err (OOE × Bucket × String) :=
  if proof.amount ≠ 1 then
    .error Err.InvalidProofAmount
  else if c.game.state ≠ State.Payout then
    .error Err.WrongPhase
  else if proof.resource ≠ c.player_badge_address then
    .error Err.InvalidIdentity
  else if proof.nft_id ≠ c.game.winner then
    .error Err.NotWinner
  else
    let winnings := c.xrd_vault
    match Game.update_state c.game with
    | none => .error Err.Panic
    | some g' =>
        .ok ( { c with xrd_vault := 0, game := g' }
            , { amount := winnings }
            , "You withdrew " ++ toString winnings ++ " XRD. Congratulations!" )

/-- Rust `OOE::get_total_wagered_amount` (observability only: the value logged). -/
def OOE.get_total_wagered_amount (c : OOE) : Nat := c.xrd_vault

/-- Rust `OOE::get_wager_amount` (observability only: the value logged). -/
def OOE.get_wager_amount (c : OOE) : Nat := c.game.bet_amount

/-- Number of joined participants. -/
def OOE.numPlayers (c : OOE) : Nat :=
  match c.game.players_list with
  | some players => players.length
  | none => 0

/-- Ids of the joined participants, in iteration order. -/
def OOE.playerIds (c : OOE) : List NFLId :=
  match c.game.players_list with
  | some players => players.map Prod.fst
  | none => []

/-- Ids of the badges still in the badge vault. -/
def OOE.poolIds (c : OOE) : List NFLId :=
  c.player_badges_vault.map Prod.fst

/-- One successful public operation on the component (a failed call panics
and leaves the Scrypto component state untouched, so only `.ok` results move
the state). -/
inductive Step : OOE → OOE → Prop
  | join {c c' : OOE} (wager : Bucket) (badge : NFLId × PlayerNFT) (change : Bucket)
      (h : c.join_ooe_game wager = .ok (c', badge, change)) : Step c c'
  | pick {c c' : OOE} (number : Nat) (proof : Proof)
      (h : c.pick_number number proof = .ok c') : Step c c'
  | withdraw {c c' : OOE} (proof : Proof) (payout : Bucket) (msg : String)
      (h : c.withdraw_xrd proof = .ok (c', payout, msg)) : Step c c'

/-- Component states reachable from game creation through successful public
operations. -/
inductive Reachable : OOE → Prop
  | init (bet : Nat) : Reachable (instantiate_ooe_game bet)
  | step (c c' : OOE) (hr : Reachable c) (hs : Step c c') : Reachable c'

/-- Modelled from the spec: the per-phase exit condition of the phase table
(§4.1) — `AcceptingParticipants`: exactly 2 participants joined;
`GuessCollection`: both guesses non-zero; `WinnerSelection`: winner no longer
the sentinel; `Payout`: payout performed (escrow emptied); `Ended` terminal. -/
def specExitCond (c : OOE) : Prop :=
  match c.game.state with
  | State.AcceptingPlayers => c.numPlayers = 2
  | State.PickNumber => c.game.both_picked = true
  | State.WinnerSelection => c.game.winner ≠ 0
  | State.Payout => c.xrd_vault = 0
  | State.Ended => False

/-- Participants who have joined and not yet been settled by the payout: all
of them until the payout completes, none once the game has ended (the pot,
both stakes included, has then been paid to the winner). -/
def OOE.unpaidCount (c : OOE) : Nat :=
  if c.game.state = State.Ended then 0 else c.numPlayers

instance (c : OOE) : Decidable (specExitCond c) := by
  unfold specExitCond
  cases c.game.state <;> exact inferInstance

/-- Sample game: fresh component with a bet of 100. -/
def traceC0 : OOE := instantiate_ooe_game 100

/-- Sample game after the first join (wager 150, change 50). -/
def traceC1 : OOE :=
  { player_badges_vault := [(2, { name := "Odd Player badge", odd_or_even := OddOrEven.Odd })]
    player_badge_address := 1
    xrd_vault := 100
    game := { state := State.AcceptingPlayers
              players_list := some [(1, { number := 0, odd_or_even := some OddOrEven.Even })]
              winner := 0
              bet_amount := 100 } }

/-- Sample game after both joins: phase `PickNumber`, escrow 200. -/
def traceC2 : OOE :=
  { player_badges_vault := []
    player_badge_address := 1
    xrd_vault := 200
    game := { state := State.PickNumber
              players_list := some
                [ (1, { number := 0, odd_or_even := some OddOrEven.Even })
                , (2, { number := 0, odd_or_even := some OddOrEven.Odd }) ]
              winner := 0
              bet_amount := 100 } }

/-- Proof presented by the holder of badge 1. -/
def proofP1 : Proof := { amount := 1, resource := 1, nft_id := 1 }

/-- Proof presented by the holder of badge 2. -/
def proofP2 : Proof := { amount := 1, resource := 1, nft_id := 2 }

/-- Sample game after player 1 picked 1 (odd). -/
def traceStuck3 : OOE :=
  { traceC2 with
      game := { traceC2.game with
                  players_list := some
                    [ (1, { number := 1, odd_or_even := some OddOrEven.Even })
                    , (2, { number := 0, odd_or_even := some OddOrEven.Odd }) ] } }

/-- Sample game after picks (1, 2): no running sum was even, so the winner
stays the sentinel 0 and the phase is stuck at `WinnerSelection`. -/
def traceStuck4 : OOE :=
  { traceC2 with
      game := { traceC2.game with
                  state := State.WinnerSelection
                  players_list := some
                    [ (1, { number := 1, odd_or_even := some OddOrEven.Even })
                    , (2, { number := 2, odd_or_even := some OddOrEven.Odd }) ] } }

/-- Sample game after player 1 picked 2 (even). -/
def tracePay3 : OOE :=
  { traceC2 with
      game := { traceC2.game with
                  players_list := some
                    [ (1, { number := 2, odd_or_even := some OddOrEven.Even })
                    , (2, { number := 0, odd_or_even := some OddOrEven.Odd }) ] } }

/-- Sample game after picks (2, 1): winner is badge 1, phase `Payout`,
escrow still 200 (the payout has not happened yet). -/
def tracePay4 : OOE :=
  { traceC2 with
      game := { traceC2.game with
                  state := State.Payout
                  winner := 1
                  players_list := some
                    [ (1, { number := 2, odd_or_even := some OddOrEven.Even })
                    , (2, { number := 1, odd_or_even := some OddOrEven.Odd }) ] } }

/-- A two-record game in `WinnerSelection`, picks (2, 1) in iteration order,
used to evaluate the winner fold on a concrete input. -/
def foldSample : Game :=
  { state := State.WinnerSelection
    players_list := some
      [ (1, { number := 2, odd_or_even := some OddOrEven.Even })
      , (2, { number := 1, odd_or_even := some OddOrEven.Odd }) ]
    winner := 0
    bet_amount := 100 }

/-- System invariant carried through every reachable state: the escrow holds
the bet once per unpaid participant, and the badge ids still in the pool are
distinct and disjoint from the ids already joined. -/
def SysInv (c : OOE) : Prop :=
  c.xrd_vault = c.game.bet_amount * c.unpaidCount
  ∧ (∀ i ∈ c.poolIds, i ∉ c.playerIds)
  ∧ c.poolIds.Nodup

/-- Sanity: my inlining of the trailing `self.update_state()` call of
`get_game_winner` is exact — on a `WinnerSelection` state, `update_state`
is precisely the `WinnerSelection` arm. -/
theorem Game.update_state_at_winner_selection (g : Game)
    (h : g.state = State.WinnerSelection) :
    Game.update_state g = some g.update_state_winner_selection := by
  unfold Game.update_state
  rw [h]

theorem reachable_traceC1 : Reachable traceC1 :=
  Reachable.step traceC0 traceC1 (Reachable.init 100)
    (Step.join { amount := 150 }
      (1, { name := "Even Player badge", odd_or_even := OddOrEven.Even })
      { amount := 50 } rfl)

theorem reachable_traceC2 : Reachable traceC2 :=
  Reachable.step traceC1 traceC2 reachable_traceC1
    (Step.join { amount := 100 }
      (2, { name := "Odd Player badge", odd_or_even := OddOrEven.Odd })
      { amount := 0 } rfl)

theorem reachable_traceStuck4 : Reachable traceStuck4 :=
  Reachable.step traceStuck3 traceStuck4
    (Reachable.step traceC2 traceStuck3 reachable_traceC2
      (Step.pick 1 proofP1 rfl))
    (Step.pick 2 proofP2 rfl)

theorem reachable_tracePay4 : Reachable tracePay4 :=
  Reachable.step tracePay3 tracePay4
    (Reachable.step traceC2 tracePay3 reachable_traceC2
      (Step.pick 2 proofP1 rfl))
    (Step.pick 1 proofP2 rfl)

/-- Behavior of `update_state` in the `AcceptingPlayers` phase with a present
players map: advance to `PickNumber` exactly when 2 players are present. -/
theorem update_state_accepting {g : Game} {players' : List (NFLId × Player)}
    (hst : g.state = State.AcceptingPlayers) (hpl : g.players_list = some players') :
    Game.update_state g =
      some { g with state := if players'.length = 2 then State.PickNumber
                             else State.AcceptingPlayers } := by
  rcases g with ⟨st, pl, w, b⟩
  simp only at hst hpl
  subst hst; subst hpl
  unfold Game.update_state
  by_cases h2 : players'.length = 2 <;> simp [h2]

/-- Inversion of a successful `join_ooe_game` call: the checks that must have
passed and the exact resulting state, returned badge and change. -/
theorem join_ok_inv {c : OOE} {wager : Bucket} {c' : OOE}
    {badge : NFLId × PlayerNFT} {change : Bucket}
    (h : c.join_ooe_game wager = .ok (c', badge, change)) :
    ∃ rest players',
      c.game.state = State.AcceptingPlayers
      ∧ c.game.bet_amount ≤ wager.amount
      ∧ (∀ ps, c.game.players_list = some ps → ps.length ≤ 2)
      ∧ c.player_badges_vault = badge :: rest
      ∧ players' = (match c.game.players_list with
          | some players => hashMapInsert players badge.1
              { number := 0, odd_or_even := some badge.2.odd_or_even }
          | none => [(badge.1, { number := 0, odd_or_even := some badge.2.odd_or_even })])
      ∧ c' = { c with
                 player_badges_vault := rest
                 xrd_vault := c.xrd_vault + c.game.bet_amount
                 game := { c.game with
                             players_list := some players'
                             state := if players'.length = 2 then State.PickNumber
                                      else State.AcceptingPlayers } }
      ∧ change = { amount := wager.amount - c.game.bet_amount } := by
  obtain ⟨pool, pba, xrd, st, pl, w, bet⟩ := c
  rcases pool with _ | ⟨b, rest⟩
  · unfold OOE.join_ooe_game at h
    split at h
    · exact absurd h (by simp)
    split at h
    · exact absurd h (by simp)
    split at h
    · exact absurd h (by simp)
    exact absurd h (by simp)
  · rcases pl with _ | ps
    · unfold OOE.join_ooe_game at h
      split at h
      · exact absurd h (by simp)
      next hstate =>
      split at h
      · exact absurd h (by simp)
      next hfull =>
      split at h
      · exact absurd h (by simp)
      next hwager =>
      rw [not_not] at hstate
      subst hstate
      simp only [Player.empty] at h
      rw [update_state_accepting
        (g := (⟨State.AcceptingPlayers,
                some [(b.1, { number := 0, odd_or_even := some b.2.odd_or_even })],
                w, bet⟩ : Game)) rfl rfl] at h
      simp only [Except.ok.injEq, Prod.mk.injEq] at h
      obtain ⟨hc', hb, hch⟩ := h
      subst hb
      refine ⟨rest, _, rfl, by omega, ?_, rfl, rfl, hc'.symm, hch.symm⟩
      intro ps hps
      exact absurd hps (by simp)
    · unfold OOE.join_ooe_game at h
      split at h
      · exact absurd h (by simp)
      next hstate =>
      split at h
      · exact absurd h (by simp)
      next hfull =>
      split at h
      · exact absurd h (by simp)
      next hwager =>
      rw [not_not] at hstate
      subst hstate
      simp only [Player.empty] at h
      rw [update_state_accepting
        (g := (⟨State.AcceptingPlayers,
                some (hashMapInsert ps b.1 { number := 0, odd_or_even := some b.2.odd_or_even }),
                w, bet⟩ : Game)) rfl rfl] at h
      simp only [Except.ok.injEq, Prod.mk.injEq] at h
      obtain ⟨hc', hb, hch⟩ := h
      subst hb
      refine ⟨rest, _, rfl, by omega, ?_, rfl, rfl, hc'.symm, hch.symm⟩
      intro ps' hps'
      simp only [Option.some.injEq] at hps'
      subst hps'
      simp at hfull
      omega

/-- Inversion of a successful `pick_number` call: the checks that must have
passed and the exact resulting state. -/
theorem pick_ok_inv {c : OOE} {n : Nat} {proof : Proof} {c' : OOE}
    (h : c.pick_number n proof = .ok c') :
    ∃ players g',
      proof.amount = 1
      ∧ c.game.state = State.PickNumber
      ∧ proof.resource = c.player_badge_address
      ∧ c.game.players_list = some players
      ∧ (players.any fun p => p.1 == proof.nft_id) = true
      ∧ Game.update_state { c.game with
            players_list := some (pickUpdate players proof.nft_id n) } = some g'
      ∧ c' = { c with game := g' } := by
  obtain ⟨pool, pba, xrd, st, pl, w, bet⟩ := c
  unfold OOE.pick_number at h
  split at h
  · exact absurd h (by simp)
  next h1 =>
  split at h
  · exact absurd h (by simp)
  next h2 =>
  split at h
  · exact absurd h (by simp)
  next h3 =>
  rw [not_not] at h1 h2 h3
  rcases pl with _ | ps
  · exact absurd h (by simp)
  simp only at h
  split at h
  case isFalse => exact absurd h (by simp)
  next hmem =>
  split at h
  · exact absurd h (by simp)
  next g' hup =>
  simp only [Except.ok.injEq] at h
  subst h2
  exact ⟨ps, g', h1, rfl, h3, rfl, hmem, hup, h.symm⟩

/-- Inversion of a successful `withdraw_xrd` call: the checks that must have
passed, the full-balance payout, and the `Payout → Ended` transition. -/
theorem withdraw_ok_inv {c : OOE} {proof : Proof} {c' : OOE} {payout : Bucket} {msg : String}
    (h : c.withdraw_xrd proof = .ok (c', payout, msg)) :
    proof.amount = 1
    ∧ c.game.state = State.Payout
    ∧ proof.resource = c.player_badge_address
    ∧ proof.nft_id = c.game.winner
    ∧ payout = { amount := c.xrd_vault }
    ∧ msg = "You withdrew " ++ toString c.xrd_vault ++ " XRD. Congratulations!"
    ∧ c' = { c with xrd_vault := 0, game := { c.game with state := State.Ended } } := by
  obtain ⟨pool, pba, xrd, st, pl, w, bet⟩ := c
  unfold OOE.withdraw_xrd at h
  split at h
  · exact absurd h (by simp)
  next h1 =>
  split at h
  · exact absurd h (by simp)
  next h2 =>
  split at h
  · exact absurd h (by simp)
  next h3 =>
  split at h
  · exact absurd h (by simp)
  next h4 =>
  rw [not_not] at h1 h2 h3 h4
  subst h2
  simp only [Game.update_state] at h
  simp only [Except.ok.injEq, Prod.mk.injEq] at h
  obtain ⟨hc', hpay, hmsg⟩ := h
  exact ⟨h1, rfl, h3, h4, hpay.symm, hmsg.symm, hc'.symm⟩

/-- The `both_picked` test only reads `players_list`. -/
theorem both_picked_congr {g h : Game} (e : g.players_list = h.players_list) :
    g.both_picked = h.both_picked := by
  unfold Game.both_picked
  rw [e]

/-- Behavior of `update_state` from the `PickNumber` phase: the players map
and bet are untouched, the state lands in `PickNumber`, `WinnerSelection` or
`Payout` (never further), leaving `PickNumber` requires `both_picked`, and
`Payout` is reached only with a non-sentinel winner. -/
theorem update_state_from_pick {g g' : Game} (h : Game.update_state g = some g')
    (hst : g.state = State.PickNumber) :
    g'.players_list = g.players_list
    ∧ g'.bet_amount = g.bet_amount
    ∧ (g'.state = State.PickNumber ∨ g'.state = State.WinnerSelection
        ∨ g'.state = State.Payout)
    ∧ (g'.state ≠ State.PickNumber → g.both_picked = true)
    ∧ (g'.state = State.Payout → g'.winner ≠ 0)
    ∧ (g.both_picked = false → g' = g) := by
  rcases g with ⟨st, pl, w, bet⟩
  simp only at hst
  subst hst
  simp only [Game.update_state] at h
  split at h
  case isFalse hbp =>
    simp only [Option.some.injEq] at h
    subst h
    simp_all
  case isTrue hbp =>
    rcases pl with _ | ps
    · simp [Game.both_picked] at hbp
    unfold Game.get_game_winner at h
    split at h
    case isFalse hws => simp at hws
    simp only [Option.some.injEq] at h
    subst h
    unfold Game.update_state_winner_selection
    split
    next hw =>
      refine ⟨rfl, rfl, Or.inr (Or.inr rfl), fun _ => hbp, fun _ => hw, fun hf => ?_⟩
      rw [hbp] at hf; exact absurd hf (by simp)
    next hw =>
      refine ⟨rfl, rfl, Or.inr (Or.inl rfl), fun _ => hbp, fun hp => ?_, fun hf => ?_⟩
      · exact absurd hp (by simp)
      · rw [hbp] at hf; exact absurd hf (by simp)

/-- Inserting a fresh key appends the binding. -/
theorem hashMapInsert_not_mem {m : List (NFLId × Player)} {k : NFLId} (v : Player)
    (hk : k ∉ m.map Prod.fst) :
    hashMapInsert m k v = m ++ [(k, v)] := by
  unfold hashMapInsert
  split
  next hany =>
    exfalso
    rw [List.any_eq_true] at hany
    obtain ⟨p, hp, hpk⟩ := hany
    exact hk (List.mem_map.mpr ⟨p, hp, by simpa using hpk⟩)
  next => rfl

/-- The inserted binding is in the map afterwards. -/
theorem hashMapInsert_mem (m : List (NFLId × Player)) (k : NFLId) (v : Player) :
    (k, v) ∈ hashMapInsert m k v := by
  unfold hashMapInsert
  split
  next hany =>
    rw [List.any_eq_true] at hany
    obtain ⟨p, hp, hpk⟩ := hany
    refine List.mem_map.mpr ⟨p, hp, ?_⟩
    simp [hpk]
  next =>
    simp

/-- `pickUpdate` preserves the keys of the players map. -/
theorem pickUpdate_map_fst (players : List (NFLId × Player)) (id : NFLId) (n : Nat) :
    (pickUpdate players id n).map Prod.fst = players.map Prod.fst := by
  unfold pickUpdate
  induction players with
  | nil => rfl
  | cons p ps ih =>
      simp only [List.map_cons, ih]
      congr 1
      split <;> rfl

/-- The system invariant holds at game creation. -/
theorem sysInv_init (bet : Nat) : SysInv (instantiate_ooe_game bet) := by
  refine ⟨?_, ?_, ?_⟩ <;>
    simp [instantiate_ooe_game, Game.instantiate_game, SysInv, OOE.unpaidCount,
      OOE.numPlayers, OOE.poolIds, OOE.playerIds]

/-- Every successful public operation preserves the system invariant. -/
theorem sysInv_step {c c' : OOE} (hinv : SysInv c) (hs : Step c c') : SysInv c' := by
  obtain ⟨hv, hdisj, hnd⟩ := hinv
  cases hs with
  | join wager badge change hok =>
      obtain ⟨rest, players', hst, hbet, hle, hpool, hplm, hc', hch⟩ := join_ok_inv hok
      subst hc'
      have hpid : c.poolIds = badge.1 :: rest.map Prod.fst := by
        rw [OOE.poolIds, hpool]; rfl
      have hbnot : badge.1 ∉ c.playerIds := by
        apply hdisj
        rw [hpid]
        exact List.mem_cons_self _ _
      rw [hpid] at hdisj hnd
      rw [List.nodup_cons] at hnd
      have hnE : c.game.state ≠ State.Ended := by rw [hst]; simp
      have hunp : c.unpaidCount = c.numPlayers := by
        unfold OOE.unpaidCount
        rw [if_neg hnE]
      have hunp' : ∀ cx : OOE, cx.game.state ≠ State.Ended →
          cx.unpaidCount = cx.numPlayers := by
        intro cx hx
        unfold OOE.unpaidCount
        rw [if_neg hx]
      rcases hplq : c.game.players_list with _ | ps
      · rw [hplq] at hplm
        simp only at hplm
        subst hplm
        refine ⟨?_, ?_, hnd.2⟩
        · rw [hunp']
          · simp only [OOE.numPlayers]
            have hnc : c.numPlayers = 0 := by simp [OOE.numPlayers, hplq]
            rw [hv, hunp, hnc]
            simp
          · simp only []
            split <;> simp
        · intro i hi
          simp only [OOE.poolIds] at hi
          simp only [OOE.playerIds, List.map_cons, List.map_nil]
          intro hmem
          simp at hmem
          subst hmem
          exact hnd.1 hi
      · rw [hplq] at hplm
        simp only at hplm
        have hbnot' : badge.1 ∉ ps.map Prod.fst := by
          simpa [OOE.playerIds, hplq] using hbnot
        rw [hashMapInsert_not_mem _ hbnot'] at hplm
        subst hplm
        refine ⟨?_, ?_, hnd.2⟩
        · rw [hunp']
          · simp only [OOE.numPlayers]
            have hnc : c.numPlayers = ps.length := by simp [OOE.numPlayers, hplq]
            rw [hv, hunp, hnc]
            simp [Nat.mul_succ]
          · simp only []
            split <;> simp
        · intro i hi
          simp only [OOE.poolIds] at hi
          simp only [OOE.playerIds, List.map_append, List.map_cons, List.map_nil]
          intro hmem
          rw [List.mem_append] at hmem
          rcases hmem with hmem | hmem
          · exact hdisj i (List.mem_cons_of_mem _ hi) (by simpa [OOE.playerIds, hplq] using hmem)
          · simp at hmem
            subst hmem
            exact hnd.1 hi
  | pick n proof hok =>
      obtain ⟨players, g', h1, hst, h3, hpl, hmem, hup, hc'⟩ := pick_ok_inv hok
      obtain ⟨hgpl, hgbet, hgst, hgbp, hgw, _⟩ := update_state_from_pick hup hst
      subst hc'
      have hnE : c.game.state ≠ State.Ended := by rw [hst]; simp
      have hnE' : g'.state ≠ State.Ended := by
        rcases hgst with hg | hg | hg <;> rw [hg] <;> simp
      refine ⟨?_, ?_, hnd⟩
      · have h1' : ({ c with game := g' } : OOE).unpaidCount
            = ({ c with game := g' } : OOE).numPlayers := by
          unfold OOE.unpaidCount
          rw [if_neg hnE']
        rw [h1']
        have h2' : ({ c with game := g' } : OOE).numPlayers = c.numPlayers := by
          simp only [OOE.numPlayers, hgpl]
          rw [hpl]
          simp [pickUpdate]
        rw [h2']
        have h3' : c.unpaidCount = c.numPlayers := by
          unfold OOE.unpaidCount
          rw [if_neg hnE]
        simp only [hgbet]
        rw [hv, h3']
      · intro i hi
        have hpi : ({ c with game := g' } : OOE).playerIds = c.playerIds := by
          simp only [OOE.playerIds, hgpl]
          rw [hpl]
          simp [pickUpdate_map_fst]
        rw [hpi]
        exact hdisj i hi
  | withdraw proof payout msg hok =>
      obtain ⟨h1, hst, h3, h4, hpay, hmsg, hc'⟩ := withdraw_ok_inv hok
      subst hc'
      refine ⟨?_, ?_, hnd⟩
      · simp [OOE.unpaidCount]
      · intro i hi
        simpa [OOE.playerIds] using hdisj i hi

/-- The system invariant holds in every reachable state. -/
theorem reachable_sysInv {c : OOE} (h : Reachable c) : SysInv c := by
  induction h with
  | init bet => exact sysInv_init bet
  | step c c' hr hs ih => exact sysInv_step ih hs

/-- The winner field is untouched by the `WinnerSelection` arm of
`update_state` (it only may advance the phase). -/
theorem usws_winner (g : Game) :
    (Game.update_state_winner_selection g).winner = g.winner := by
  unfold Game.update_state_winner_selection
  split <;> rfl

/-- Parity is unchanged by the `u128` wrap: `2` divides `2 ^ 128`. -/
theorem mod_u128_mod_two (a : Nat) : a % U128MOD % 2 = a % 2 :=
  Nat.mod_mod_of_dvd a (by norm_num [U128MOD])

/-- A list with an element failing the filter predicate loses length. -/
theorem length_filter_lt_of_mem {α : Type} {l : List α} {p : α → Bool} {x : α}
    (hx : x ∈ l) (hpx : p x = false) :
    (l.filter p).length < l.length := by
  induction l with
  | nil => cases hx
  | cons a l ih =>
      rcases List.mem_cons.mp hx with rfl | hx'
      · rw [List.filter_cons, hpx]
        simpa using Nat.lt_succ_of_le (l.length_filter_le p)
      · rw [List.filter_cons]
        split
        · simpa using Nat.succ_lt_succ (ih hx')
        · simpa using Nat.lt_succ_of_lt (ih hx')

/-- A recorded guess of 0 keeps `both_picked` false: the zero pick is dropped
by the strictly-positive filter. -/
theorem both_picked_false_of_zero (g : Game) (ps : List (NFLId × Player))
    (hpl : g.players_list = some ps) (p : NFLId × Player) (hp : p ∈ ps)
    (hz : p.2.number = 0) :
    g.both_picked = false := by
  rcases g with ⟨st, pl, w, bet⟩
  simp only at hpl
  subst hpl
  unfold Game.both_picked
  simp only
  split
  case isFalse => rfl
  case isTrue h2 =>
    rw [beq_iff_eq] at h2
    rw [beq_eq_false_iff_ne]
    intro hcontra
    have hlt : ((ps.map fun q => q.2.number).filter fun pick => 0 < pick).length
        < (ps.map fun q => q.2.number).length := by
      refine length_filter_lt_of_mem (List.mem_map.mpr ⟨p, hp, rfl⟩) ?_
      simp [hz]
    rw [List.length_map] at hlt
    omega

/-- In `PickNumber`, `update_state` is a no-op while `both_picked` fails. -/
theorem update_state_pick_noop {g : Game} (hst : g.state = State.PickNumber)
    (hbp : g.both_picked = false) :
    Game.update_state g = some g := by
  simp [Game.update_state, hst, hbp]

/-- In `PickNumber` with a present players map, `update_state` never panics. -/
theorem update_state_pick_total {g : Game} {ps : List (NFLId × Player)}
    (hst : g.state = State.PickNumber) (hpl : g.players_list = some ps) :
    ∃ g', Game.update_state g = some g' := by
  rcases g with ⟨st, pl, w, bet⟩
  simp only at hst hpl
  subst hst; subst hpl
  simp only [Game.update_state]
  split
  · unfold Game.get_game_winner
    rw [if_pos rfl]
    exact ⟨_, rfl⟩
  · exact ⟨_, rfl⟩

/-- `pickUpdate` preserves which ids are present. -/
theorem pickUpdate_any (players : List (NFLId × Player)) (id : NFLId) (n : Nat) :
    ((pickUpdate players id n).any fun p => p.1 == id)
      = (players.any fun p => p.1 == id) := by
  unfold pickUpdate
  induction players with
  | nil => rfl
  | cons p ps ih =>
      simp only [List.map_cons, List.any_cons, ih]
      congr 1
      split <;> rfl

/-- After `pickUpdate _ id 0`, some record holds the guess 0. -/
theorem pickUpdate_mem_zero {players : List (NFLId × Player)} {id : NFLId}
    (hmem : (players.any fun p => p.1 == id) = true) :
    ∃ p ∈ pickUpdate players id 0, p.2.number = 0 := by
  obtain ⟨q, hq, hq1⟩ := List.any_eq_true.mp hmem
  refine ⟨(q.1, { q.2 with number := 0 }), ?_, rfl⟩
  unfold pickUpdate
  refine List.mem_map.mpr ⟨q, hq, ?_⟩
  simp [hq1]

/-- Claim C1 (the code violates it): the claim says that once both joined
participants have recorded non-zero guesses, the winner fold always sets
`winner` to one of the two participant ids and the phase advances to
`Payout` in the same call. On the reachable game where the first-iterated
participant picked 1 (odd) and the second picked 2 (even), neither running
sum (1, then 3) is even, so `winner` stays the sentinel 0 and the phase is
stuck at `WinnerSelection` forever (a further `update_state` is a no-op and
no public operation accepts the `WinnerSelection` phase): both stakes are
locked. -/
theorem c1_winner_left_sentinel_on_odd_even_picks :
    Reachable traceStuck4
    ∧ traceStuck4.game.players_list
        = some [ (1, { number := 1, odd_or_even := some OddOrEven.Even })
               , (2, { number := 2, odd_or_even := some OddOrEven.Odd }) ]
    ∧ (∀ p ∈ [ ((1 : NFLId), ({ number := 1, odd_or_even := some OddOrEven.Even } : Player))
             , (2, { number := 2, odd_or_even := some OddOrEven.Odd }) ], p.2.number ≠ 0)
    ∧ traceStuck4.game.winner = 0
    ∧ traceStuck4.game.state = State.WinnerSelection
    ∧ Game.update_state traceStuck4.game = some traceStuck4.game :=
  ⟨reachable_traceStuck4, rfl, by decide, rfl, rfl, by decide⟩

/-- Claim C2: the winner rule, on a two-record players map in iteration
order with both guesses non-zero, accumulates the running sum of the guesses
and records the id of each record at which the running sum is even; the
winner is therefore the last record whose running sum was even — the second
record whenever the total is even, else the first record when its own guess
is even, else the previous winner value. -/
theorem c2_winner_fold_last_even_prefix (g : Game) (id1 id2 : NFLId) (p1 p2 : Player)
    (hst : g.state = State.WinnerSelection)
    (hpl : g.players_list = some [(id1, p1), (id2, p2)])
    (h1 : p1.number ≠ 0) (h2 : p2.number ≠ 0) :
    ∃ g', Game.get_game_winner g = some g'
      ∧ g'.winner = (if (p1.number + p2.number) % 2 = 0 then id2
          else if p1.number % 2 = 0 then id1 else g.winner)
      ∧ ((p1.number + p2.number) % 2 = 0 → g'.winner = id2) := by
  rcases g with ⟨st, pl, w, bet⟩
  simp only at hst hpl
  subst hst; subst hpl
  unfold Game.get_game_winner
  rw [if_pos rfl]
  simp only [List.foldl_cons, List.foldl_nil]
  refine ⟨_, rfl, ?_, ?_⟩
  · rw [usws_winner]
    simp only
    have e1 : (0 + p1.number) % U128MOD % 2 = p1.number % 2 := by
      rw [Nat.zero_add, mod_u128_mod_two]
    have e2 : ((0 + p1.number) % U128MOD + p2.number) % U128MOD % 2
        = (p1.number + p2.number) % 2 := by
      rw [mod_u128_mod_two, Nat.zero_add, Nat.add_mod, mod_u128_mod_two, ← Nat.add_mod]
    simp only [beq_iff_eq, e1, e2]
  · intro hev
    rw [usws_winner]
    simp only
    have e2 : ((0 + p1.number) % U128MOD + p2.number) % U128MOD % 2
        = (p1.number + p2.number) % 2 := by
      rw [mod_u128_mod_two, Nat.zero_add, Nat.add_mod, mod_u128_mod_two, ← Nat.add_mod]
    rw [if_pos]
    rw [beq_iff_eq, e2]
    exact hev

/-- Claim C2 witness: the fold on the concrete picks (2, 1) — total 3 odd,
first running sum 2 even, so the first-iterated record (id 1) wins. -/
theorem c2_winner_fold_last_even_prefix_witness :
    foldSample.state = State.WinnerSelection
    ∧ foldSample.players_list
        = some [ (1, { number := 2, odd_or_even := some OddOrEven.Even })
               , (2, { number := 1, odd_or_even := some OddOrEven.Odd }) ]
    ∧ ((2 : Nat) ≠ 0) ∧ ((1 : Nat) ≠ 0)
    ∧ (∃ g', Game.get_game_winner foldSample = some g'
        ∧ g'.winner = (if ((2 : Nat) + 1) % 2 = 0 then 2
            else if (2 : Nat) % 2 = 0 then 1 else foldSample.winner)
        ∧ (((2 : Nat) + 1) % 2 = 0 → g'.winner = 2)) :=
  ⟨rfl, rfl, by decide, by decide,
    c2_winner_fold_last_even_prefix foldSample 1 2
      { number := 2, odd_or_even := some OddOrEven.Even }
      { number := 1, odd_or_even := some OddOrEven.Odd }
      rfl rfl (by decide) (by decide)⟩

/-- Claim C3: every successful public operation moves the phase forward in
the order AcceptingPlayers, PickNumber, WinnerSelection, Payout, Ended
(never backward), and a phase is only left when its exit condition holds:
leaving AcceptingPlayers requires 2 joined participants, leaving PickNumber
requires both non-zero guesses, Payout is only entered with a non-sentinel
winner, and Payout is only left into Ended with the escrow emptied by the
payout. -/
theorem c3_phase_forward_and_exit_gated (c c' : OOE) (h : Step c c') :
    State.rank c.game.state ≤ State.rank c'.game.state
    ∧ (c.game.state = State.AcceptingPlayers → c'.game.state ≠ State.AcceptingPlayers →
        c'.numPlayers = 2)
    ∧ (c.game.state = State.PickNumber → c'.game.state ≠ State.PickNumber →
        c'.game.both_picked = true)
    ∧ (c.game.state ≠ State.Payout → c'.game.state = State.Payout →
        c'.game.winner ≠ 0)
    ∧ (c.game.state = State.Payout → c'.game.state ≠ State.Payout →
        c'.game.state = State.Ended ∧ c'.xrd_vault = 0) := by
  cases h with
  | join wager badge change hok =>
      obtain ⟨rest, players', hst, hbet, hle, hpool, hplm, hc', hch⟩ := join_ok_inv hok
      subst hc'
      by_cases h2 : players'.length = 2 <;>
        simp [hst, h2, State.rank, OOE.numPlayers]
  | pick n proof hok =>
      obtain ⟨players, g', h1, hst, h3, hpl, hmem, hup, hc'⟩ := pick_ok_inv hok
      obtain ⟨hgpl, hgbet, hgst, hgbp, hgw, _⟩ := update_state_from_pick hup hst
      subst hc'
      have hbp' : g'.state ≠ State.PickNumber → g'.both_picked = true := by
        intro hne
        have hb := hgbp hne
        rwa [both_picked_congr hgpl]
      refine ⟨?_, ?_, ?_, ?_, ?_⟩
      · rcases hgst with hg | hg | hg <;> simp [hst, hg, State.rank]
      · intro ha
        rw [hst] at ha
        exact absurd ha (by simp)
      · intro _ hne
        exact hbp' hne
      · intro _ hp
        exact hgw hp
      · intro ha
        rw [hst] at ha
        exact absurd ha (by simp)
  | withdraw proof payout msg hok =>
      obtain ⟨h1, hst, h3, h4, hpay, hmsg, hc'⟩ := withdraw_ok_inv hok
      subst hc'
      simp [hst, State.rank]

/-- Claim C3 witness: the first join of the sample game, evaluated. -/
theorem c3_phase_forward_and_exit_gated_witness :
    Step traceC0 traceC1
    ∧ (State.rank traceC0.game.state ≤ State.rank traceC1.game.state
      ∧ (traceC0.game.state = State.AcceptingPlayers →
          traceC1.game.state ≠ State.AcceptingPlayers → traceC1.numPlayers = 2)
      ∧ (traceC0.game.state = State.PickNumber →
          traceC1.game.state ≠ State.PickNumber → traceC1.game.both_picked = true)
      ∧ (traceC0.game.state ≠ State.Payout → traceC1.game.state = State.Payout →
          traceC1.game.winner ≠ 0)
      ∧ (traceC0.game.state = State.Payout → traceC1.game.state ≠ State.Payout →
          traceC1.game.state = State.Ended ∧ traceC1.xrd_vault = 0)) :=
  have hstep : Step traceC0 traceC1 :=
    Step.join { amount := 150 }
      (1, { name := "Even Player badge", odd_or_even := OddOrEven.Even })
      { amount := 50 } rfl
  ⟨hstep, c3_phase_forward_and_exit_gated traceC0 traceC1 hstep⟩

/-- Claim C4 counterexample: the claim says `update_state` is a no-op on
every reachable state whose phase's exit condition does not hold, but the
`Payout` arm is unconditional: on the reachable `Payout` state whose escrow
still holds both stakes (payout not performed, so the spec's exit condition
for `Payout` fails), `update_state` still advances the phase to `Ended`. -/
theorem c4_counterexample_payout_arm_unconditional :
    Reachable tracePay4
    ∧ ¬ specExitCond tracePay4
    ∧ Game.update_state tracePay4.game ≠ some tracePay4.game :=
  ⟨reachable_tracePay4, by decide, by decide⟩

/-- Claim C4 (amended): for every component state whose participant table
exists (at least one join happened) and whose phase is not `Payout`, calling
`update_state` when the phase's exit condition does not hold leaves the game
unchanged — hence repeated calls produce identical state. (In `Payout` the
arm is unconditional, but the program only invokes it there after the payout
has been performed; before the first join, the `AcceptingPlayers` arm would
panic on the absent table rather than return.) -/
theorem c4_update_state_noop_outside_payout (c : OOE) (ps : List (NFLId × Player))
    (hpl : c.game.players_list = some ps)
    (hnp : c.game.state ≠ State.Payout)
    (hx : ¬ specExitCond c) :
    Game.update_state c.game = some c.game := by
  cases hst : c.game.state with
  | AcceptingPlayers =>
      have hx' : c.numPlayers ≠ 2 := fun he => hx (by
        unfold specExitCond
        rw [hst]
        exact he)
      have hlen : ¬ (ps.length == 2) = true := by
        simpa [OOE.numPlayers, hpl] using hx'
      simp [Game.update_state, hst, hpl, hlen]
  | PickNumber =>
      have hx' : ¬ c.game.both_picked = true := fun he => hx (by
        unfold specExitCond
        rw [hst]
        exact he)
      simp [Game.update_state, hst, hx']
  | WinnerSelection =>
      have hx' : c.game.winner = 0 := by
        by_contra hne
        exact hx (by
          unfold specExitCond
          rw [hst]
          exact hne)
      simp [Game.update_state, hst, Game.update_state_winner_selection, hx']
  | Payout => exact absurd hst hnp
  | Ended => simp [Game.update_state, hst]

/-- Claim C4 witness: the one-join state (1 participant, exit condition for
`AcceptingPlayers` fails), where `update_state` is indeed a no-op. -/
theorem c4_update_state_noop_outside_payout_witness :
    traceC1.game.players_list
      = some [(1, { number := 0, odd_or_even := some OddOrEven.Even })]
    ∧ traceC1.game.state ≠ State.Payout
    ∧ ¬ specExitCond traceC1
    ∧ Game.update_state traceC1.game = some traceC1.game :=
  ⟨rfl, by decide, by decide,
    c4_update_state_noop_outside_payout traceC1
      [(1, { number := 0, odd_or_even := some OddOrEven.Even })]
      rfl (by decide) (by decide)⟩

/-- Claim C5 counterexample: the claim says a third join fails with the
GameFull error, but on the reachable two-join game a third join (with ample
funds) fails with the wrong-phase error ("Not Accepting Players!") instead:
the second join already advanced the phase, and the GameFull guard's
non-strict bound (`len <= 2`) cannot fire at 2 participants. -/
theorem c5_counterexample_third_join_wrong_phase :
    Reachable traceC2
    ∧ traceC2.numPlayers = 2
    ∧ traceC2.join_ooe_game { amount := 100 } = .error Err.WrongPhase
    ∧ Err.WrongPhase ≠ Err.GameFull :=
  ⟨reachable_traceC2, by decide, rfl, by decide⟩

/-- Claim C5 (amended): join succeeds exactly twice per game — from a fresh
game, two sufficiently funded joins succeed, and a third join attempt is
rejected, but with the WrongPhase error rather than GameFull, because the
second join advances the phase out of `AcceptingPlayers`. -/
theorem c5_join_twice_then_third_rejected (bet w1 w2 w3 : Nat)
    (h1 : bet ≤ w1) (h2 : bet ≤ w2) (h3 : bet ≤ w3) :
    ∃ c1 c2 b1 b2 ch1 ch2,
      (instantiate_ooe_game bet).join_ooe_game { amount := w1 } = .ok (c1, b1, ch1)
      ∧ c1.join_ooe_game { amount := w2 } = .ok (c2, b2, ch2)
      ∧ c2.join_ooe_game { amount := w3 } = .error Err.WrongPhase := by
  refine ⟨⟨[(2, { name := "Odd Player badge", odd_or_even := OddOrEven.Odd })], 1, 0 + bet,
      ⟨State.AcceptingPlayers,
        some [(1, { number := 0, odd_or_even := some OddOrEven.Even })], 0, bet⟩⟩,
    ⟨[], 1, 0 + bet + bet,
      ⟨State.PickNumber,
        some [ (1, { number := 0, odd_or_even := some OddOrEven.Even })
             , (2, { number := 0, odd_or_even := some OddOrEven.Odd }) ], 0, bet⟩⟩,
    (1, { name := "Even Player badge", odd_or_even := OddOrEven.Even }),
    (2, { name := "Odd Player badge", odd_or_even := OddOrEven.Odd }),
    { amount := w1 - bet }, { amount := w2 - bet }, ?_, ?_, ?_⟩
  · unfold OOE.join_ooe_game instantiate_ooe_game Game.instantiate_game
    rw [if_neg (by simp), if_neg (by simp), if_neg (by simpa using Nat.not_lt.mpr h1)]
    rfl
  · unfold OOE.join_ooe_game
    rw [if_neg (by simp), if_neg (by simp), if_neg (by simpa using Nat.not_lt.mpr h2)]
    rfl
  · unfold OOE.join_ooe_game
    rw [if_pos (by simp)]

/-- Claim C5 witness: bet 100, wagers 150 / 100 / 100. -/
theorem c5_join_twice_then_third_rejected_witness :
    (100 : Nat) ≤ 150 ∧ (100 : Nat) ≤ 100 ∧ (100 : Nat) ≤ 100
    ∧ (∃ c1 c2 b1 b2 ch1 ch2,
        (instantiate_ooe_game 100).join_ooe_game { amount := 150 } = .ok (c1, b1, ch1)
        ∧ c1.join_ooe_game { amount := 100 } = .ok (c2, b2, ch2)
        ∧ c2.join_ooe_game { amount := 100 } = .error Err.WrongPhase) :=
  ⟨by decide, by decide, by decide,
    c5_join_twice_then_third_rejected 100 150 100 100 (by decide) (by decide) (by decide)⟩

/-- Claim C6: in the `AcceptingPlayers` phase (with the at-most-2 table
bound every reachable state satisfies), a join whose supplied funds fall
below `bet_amount` aborts with the insufficient-stake error. In the model an
error result is a Scrypto panic: the whole transaction rolls back, so the
escrow, the participant table, the badge pool and the phase are untouched —
and indeed all three asserts precede any mutation in the source. -/
theorem c6_insufficient_stake_rejected_unchanged (c : OOE) (wager : Bucket)
    (hst : c.game.state = State.AcceptingPlayers)
    (hle : ∀ ps, c.game.players_list = some ps → ps.length ≤ 2)
    (hw : wager.amount < c.game.bet_amount) :
    c.join_ooe_game wager = .error Err.InsufficientStake := by
  have hfull : ¬ ((match c.game.players_list with
      | some players => decide (¬ players.length ≤ 2)
      | none => false : Bool) = true) := by
    rcases hq : c.game.players_list with _ | ps
    · simp
    · simpa using hle ps hq
  unfold OOE.join_ooe_game
  rw [if_neg (by simp [hst]), if_neg hfull, if_pos hw]

/-- Claim C6 witness: wager 50 against bet 100 on the fresh game. -/
theorem c6_insufficient_stake_rejected_unchanged_witness :
    traceC0.game.state = State.AcceptingPlayers
    ∧ (∀ ps, traceC0.game.players_list = some ps → ps.length ≤ 2)
    ∧ ({ amount := 50 } : Bucket).amount < traceC0.game.bet_amount
    ∧ traceC0.join_ooe_game { amount := 50 } = .error Err.InsufficientStake :=
  have hle : ∀ ps, traceC0.game.players_list = some ps → ps.length ≤ 2 :=
    fun _ hps => Option.noConfusion hps
  ⟨rfl, hle, by decide,
    c6_insufficient_stake_rejected_unchanged traceC0 { amount := 50 } rfl hle (by decide)⟩

/-- Claim C7: every successful join deposited exactly `bet_amount` into the
escrow, returned the taken badge (the first still in the pool) together with
change of exactly `wager - bet_amount`, and inserted under the badge's id a
fresh participant record with guess 0 and the badge's side. -/
theorem c7_join_success_effects {c : OOE} {wager : Bucket} {c' : OOE}
    {badge : NFLId × PlayerNFT} {change : Bucket}
    (h : c.join_ooe_game wager = .ok (c', badge, change)) :
    c.game.bet_amount ≤ wager.amount
    ∧ c'.xrd_vault = c.xrd_vault + c.game.bet_amount
    ∧ change.amount = wager.amount - c.game.bet_amount
    ∧ (∃ rest, c.player_badges_vault = badge :: rest ∧ c'.player_badges_vault = rest)
    ∧ (∃ players', c'.game.players_list = some players'
        ∧ (badge.1, { number := 0, odd_or_even := some badge.2.odd_or_even }) ∈ players') := by
  obtain ⟨rest, players', hst, hbet, hle, hpool, hplm, hc', hch⟩ := join_ok_inv h
  subst hc'
  refine ⟨hbet, rfl, by rw [hch], ⟨rest, hpool, rfl⟩, ⟨players', rfl, ?_⟩⟩
  rcases hq : c.game.players_list with _ | ps <;>
    rw [hq] at hplm <;> simp only at hplm <;> subst hplm
  · simp
  · exact hashMapInsert_mem ps badge.1 _

/-- Claim C7 witness: the first join of the sample game, evaluated. -/
theorem c7_join_success_effects_witness :
    traceC0.join_ooe_game { amount := 150 }
      = .ok ( traceC1
            , (1, { name := "Even Player badge", odd_or_even := OddOrEven.Even })
            , { amount := 50 } )
    ∧ (traceC0.game.bet_amount ≤ 150
      ∧ traceC1.xrd_vault = traceC0.xrd_vault + traceC0.game.bet_amount
      ∧ ({ amount := 50 } : Bucket).amount = 150 - traceC0.game.bet_amount
      ∧ (∃ rest, traceC0.player_badges_vault
            = (1, { name := "Even Player badge", odd_or_even := OddOrEven.Even }) :: rest
          ∧ traceC1.player_badges_vault = rest)
      ∧ (∃ players', traceC1.game.players_list = some players'
          ∧ ((1 : NFLId), ({ number := 0, odd_or_even := some OddOrEven.Even } : Player))
              ∈ players')) :=
  have hok : traceC0.join_ooe_game { amount := 150 }
      = .ok ( traceC1
            , (1, { name := "Even Player badge", odd_or_even := OddOrEven.Even })
            , { amount := 50 } ) := rfl
  ⟨hok, c7_join_success_effects hok⟩

/-- Claim C8: in the `Payout` phase with a valid identity proof, a withdraw
by an id other than `winner` aborts with NotWinner (a panic: the escrow is
untouched), while a withdraw by the winner returns the whole escrowed
balance, empties the escrow, and advances the phase to `Ended`. -/
theorem c8_withdraw_payout_gating (c : OOE) (proof : Proof)
    (h1 : proof.amount = 1)
    (hst : c.game.state = State.Payout)
    (h3 : proof.resource = c.player_badge_address) :
    (proof.nft_id ≠ c.game.winner → c.withdraw_xrd proof = .error Err.NotWinner)
    ∧ (proof.nft_id = c.game.winner →
        c.withdraw_xrd proof = .ok
          ( { c with xrd_vault := 0, game := { c.game with state := State.Ended } }
          , { amount := c.xrd_vault }
          , "You withdrew " ++ toString c.xrd_vault ++ " XRD. Congratulations!" )) := by
  constructor
  · intro hne
    unfold OOE.withdraw_xrd
    rw [if_neg (by simp [h1]), if_neg (by simp [hst]), if_neg (by simp [h3]), if_pos hne]
  · intro heq
    have hup : Game.update_state c.game = some { c.game with state := State.Ended } := by
      unfold Game.update_state
      rw [hst]
    unfold OOE.withdraw_xrd
    rw [if_neg (by simp [h1]), if_neg (by simp [hst]), if_neg (by simp [h3]),
        if_neg (by simp [heq]), hup]

/-- Claim C8 witness: on the reachable `Payout` state (winner is badge 1),
evaluated with badge 1's proof. -/
theorem c8_withdraw_payout_gating_witness :
    proofP1.amount = 1
    ∧ tracePay4.game.state = State.Payout
    ∧ proofP1.resource = tracePay4.player_badge_address
    ∧ ((proofP1.nft_id ≠ tracePay4.game.winner →
          tracePay4.withdraw_xrd proofP1 = .error Err.NotWinner)
      ∧ (proofP1.nft_id = tracePay4.game.winner →
          tracePay4.withdraw_xrd proofP1 = .ok
            ( { tracePay4 with
                  xrd_vault := 0
                  game := { tracePay4.game with state := State.Ended } }
            , { amount := tracePay4.xrd_vault }
            , "You withdrew " ++ toString tracePay4.xrd_vault ++ " XRD. Congratulations!" ))) :=
  ⟨rfl, rfl, rfl, c8_withdraw_payout_gating tracePay4 proofP1 rfl rfl rfl⟩

/-- Claim C9: in every reachable component state the escrowed balance equals
`bet_amount` times the number of participants who have joined and not yet
been settled by the payout (all of them until the payout completes, none
afterwards — the pot, the loser's stake included, goes to the winner); in
particular the escrow is 0 once a successful withdraw has ended the game. -/
theorem c9_escrow_equals_stake_times_unpaid (c : OOE) (h : Reachable c) :
    c.xrd_vault = c.game.bet_amount * c.unpaidCount :=
  (reachable_sysInv h).1

/-- Claim C9 witness: the invariant evaluated on the reachable two-join
state (escrow 200 = 100 × 2). -/
theorem c9_escrow_equals_stake_times_unpaid_witness :
    Reachable traceC2
    ∧ traceC2.xrd_vault = traceC2.game.bet_amount * traceC2.unpaidCount :=
  ⟨reachable_traceC2, c9_escrow_equals_stake_times_unpaid traceC2 reachable_traceC2⟩

/-- Claim C10: in the guess-collection phase, a valid participant may submit
the guess 0: the call succeeds (the 1–6 range check is commented out in the
source) and records 0, but `both_picked` does not count it (it only counts
strictly positive numbers), so the phase stays at `PickNumber` and the same
participant can submit again — any later pick by the same proof still
succeeds. -/
theorem c10_zero_guess_recorded_not_counted (c : OOE) (proof : Proof)
    (players : List (NFLId × Player))
    (h1 : proof.amount = 1)
    (hst : c.game.state = State.PickNumber)
    (h3 : proof.resource = c.player_badge_address)
    (hpl : c.game.players_list = some players)
    (hmem : (players.any fun p => p.1 == proof.nft_id) = true) :
    ∃ c', c.pick_number 0 proof = .ok c'
      ∧ c'.game.state = State.PickNumber
      ∧ c'.game.players_list = some (pickUpdate players proof.nft_id 0)
      ∧ (∀ n : Nat, ∃ c'', c'.pick_number n proof = .ok c'') := by
  obtain ⟨q, hq, hqz⟩ := pickUpdate_mem_zero hmem
  have hbp : Game.both_picked
      { c.game with players_list := some (pickUpdate players proof.nft_id 0) } = false :=
    both_picked_false_of_zero _ _ rfl q hq hqz
  have hnoop := update_state_pick_noop
    (g := { c.game with players_list := some (pickUpdate players proof.nft_id 0) }) hst hbp
  refine ⟨{ c with game :=
      { c.game with players_list := some (pickUpdate players proof.nft_id 0) } },
    ?_, hst, rfl, ?_⟩
  · unfold OOE.pick_number
    rw [if_neg (by simp [h1]), if_neg (by simp [hst]), if_neg (by simp [h3]), hpl]
    simp only
    rw [if_pos hmem, hnoop]
  · intro n
    have hmem2 : ((pickUpdate players proof.nft_id 0).any
        fun p => p.1 == proof.nft_id) = true := by
      rw [pickUpdate_any]
      exact hmem
    obtain ⟨g'', hg''⟩ := update_state_pick_total
      (g := { c.game with players_list := some (pickUpdate
        (pickUpdate players proof.nft_id 0) proof.nft_id n) }) hst rfl
    refine ⟨{ c with game := g'' }, ?_⟩
    unfold OOE.pick_number
    rw [if_neg (by simp [h1]), if_neg (by simp [hst]), if_neg (by simp [h3])]
    simp only
    rw [if_pos hmem2, hg'']

/-- Claim C10 witness: player 1 submits 0 on the reachable two-join state. -/
theorem c10_zero_guess_recorded_not_counted_witness :
    proofP1.amount = 1
    ∧ traceC2.game.state = State.PickNumber
    ∧ proofP1.resource = traceC2.player_badge_address
    ∧ traceC2.game.players_list
        = some [ (1, { number := 0, odd_or_even := some OddOrEven.Even })
               , (2, { number := 0, odd_or_even := some OddOrEven.Odd }) ]
    ∧ (([ ((1 : NFLId), ({ number := 0, odd_or_even := some OddOrEven.Even } : Player))
        , (2, { number := 0, odd_or_even := some OddOrEven.Odd }) ].any
          fun p => p.1 == proofP1.nft_id) = true)
    ∧ (∃ c', traceC2.pick_number 0 proofP1 = .ok c'
        ∧ c'.game.state = State.PickNumber
        ∧ c'.game.players_list = some (pickUpdate
            [ (1, { number := 0, odd_or_even := some OddOrEven.Even })
            , (2, { number := 0, odd_or_even := some OddOrEven.Odd }) ] proofP1.nft_id 0)
        ∧ (∀ n : Nat, ∃ c'', c'.pick_number n proofP1 = .ok c'')) :=
  ⟨rfl, rfl, rfl, rfl, by decide,
    c10_zero_guess_recorded_not_counted traceC2 proofP1
      [ (1, { number := 0, odd_or_even := some OddOrEven.Even })
      , (2, { number := 0, odd_or_even := some OddOrEven.Odd }) ]
      rfl rfl rfl rfl (by decide)⟩
